import Mathlib

/-!
Verification of the SLP graph-search job scheduler (`lib/slp_graph_search.py`).

The development shallowly embeds the scheduler: the `GraphSearchJob` state
object and its mutators, the manager state (job heap, registry, the two FIFO
queues), one iteration of the metadata worker loop, the recursive chunked
search (`search_query`), the restart entry point, and the bounded transaction
cache wrappers.  Network responses are supplied by oracles (a fetch result for
the metadata loop, a per-round list of `(depth, transaction)` pairs for the
search loop); Python exceptions become explicit error results; the shared
mutable job objects of the Python code are represented by a heap of jobs
addressed by index, so that aliasing between the queues and the registry is
preserved.
-/

/-- Modelled from the spec: `TransactionRecord` (class `Transaction`, imported
from a module outside `src/`) is an opaque value holding raw transaction
bytes, never mutated after creation; an id is derivable from the bytes, and a
record can be parsed ("deserialized") on demand by its holder.  The
`deserialized` flag models the caller-visible deserialization state: the cache
stores and hands out only non-deserialized copies. -/
structure Transaction where
  raw : String
  deserialized : Bool := false
deriving DecidableEq, Inhabited

/-- Modelled from the spec: `Transaction._txid` derives a transaction id from
the raw bytes (a hash in the source); modelled as an injective tagging of the
bytes. -/
def Transaction._txid (raw : String) : String := "txid:" ++ raw

/-- `Transaction.txid_fast` of the source: the id of a transaction, derived
from its raw bytes. -/
def Transaction.txid_fast (t : Transaction) : String := Transaction._txid t.raw

/-- The shared transaction cache, newest entries first. -/
def TxCache := List (String × Transaction)
deriving DecidableEq, Inhabited

/-- `maxlen=100000` of `_fetched_tx_cache`. -/
def cacheMaxlen : Nat := 100000

/-- Modelled from the spec: `ExpiringCache.put` (class imported from
`lib/caches`, not under `src/`) stores the value keyed by id, evicting the
oldest entries beyond the fixed capacity (spec section 4.1). -/
def ExpiringCache.put (c : TxCache) (k : String) (v : Transaction) : TxCache :=
  ((k, v) :: (c.filter (fun p => p.1 ≠ k))).take cacheMaxlen

/-- Modelled from the spec: `ExpiringCache.get` returns the stored value for
the key, if present (spec section 4.1). -/
def ExpiringCache.get (c : TxCache) (k : String) : Option Transaction :=
  (c.find? (fun p => p.1 == k)).map (fun p => p.2)

/-- `SlpGraphSearchManager.tx_cache_get`: returns `None` on a miss or when the
stored record has falsy raw bytes, otherwise a fresh non-deserialized copy
`Transaction(tx.raw)` of the cached record. -/
def tx_cache_get (c : TxCache) (txid : String) : Option Transaction :=
  match ExpiringCache.get c txid with
  | some tx => if tx.raw ≠ "" then some { raw := tx.raw } else none
  | none => none

/-- `SlpGraphSearchManager.tx_cache_put`: raises `ValueError` (here `none`)
when the record has falsy raw bytes; otherwise stores a non-deserialized copy
`Transaction(tx.raw)` keyed by the given txid, or by the id derived from the
raw bytes when the given txid is falsy (`txid or Transaction._txid(tx.raw)`). -/
def tx_cache_put (c : TxCache) (tx : Transaction) (txid : Option String) :
    Option TxCache :=
  if tx.raw = "" then none
  else
    let id :=
      match txid with
      | some s => if s = "" then Transaction._txid tx.raw else s
      | none => Transaction._txid tx.raw
    some (ExpiringCache.put c id { raw := tx.raw })

/-- The external validation job (`valjob_ref`): liveness flags and the
configured backend host (empty string for a falsy `network.slpdb_host`). -/
structure ValJob where
  root_txid : String
  running : Bool
  has_never_run : Bool
  slpdb_host : String
deriving DecidableEq, Inhabited

/-- Cancellation callbacks that can be registered on a job: an arbitrary
caller-supplied one (identified by a tag), or the closure created by
`restart_search`, which captures the job's root txid and valjob reference. -/
inductive Callback where
  | other (tag : Nat)
  | restartCb (root_txid : String) (vj : ValJob)
deriving DecidableEq, Inhabited

/-- `GraphSearchJob.__init__`: field defaults are the initial values assigned
by the constructor. -/
structure GraphSearchJob where
  root_txid : String
  valjob : ValJob
  depth_map : Option (List (Nat × Int × Int)) := none
  total_depth : Option Int := none
  txn_count_total : Option Int := none
  search_started : Bool := false
  search_success : Option Bool := none
  job_complete : Bool := false
  exit_msg : Option String := none
  depth_completed : Int := 0
  depth_current_query : Option Int := none
  txn_count_progress : Nat := 0
  last_search_url : String := "(url empty)"
  waiting_to_cancel : Bool := false
  cancel_callback : Option Callback := none
  fetch_retries : Nat := 0
deriving DecidableEq, Inhabited

/-- `GraphSearchJob.sched_cancel`: always records the reason; returns at once
on a complete job; otherwise registers the pending-cancel flag and the
callback, unless a cancellation is already pending. -/
def GraphSearchJob.sched_cancel (j : GraphSearchJob) (callback : Option Callback)
    (reason : String) : GraphSearchJob :=
  let j := { j with exit_msg := some reason }
  if j.job_complete then j
  else if j.waiting_to_cancel then j
  else { j with waiting_to_cancel := true, cancel_callback := callback }

/-- `GraphSearchJob._cancel`: the applied cancellation; the callback, when
registered, is invoked by the caller of this step (see `searchRound`). -/
def GraphSearchJob._cancel (j : GraphSearchJob) : GraphSearchJob :=
  { j with job_complete := true, search_success := some false }

/-- `GraphSearchJob.set_success`. -/
def GraphSearchJob.set_success (j : GraphSearchJob) : GraphSearchJob :=
  { j with search_success := some true, job_complete := true }

/-- `GraphSearchJob.set_failed`. -/
def GraphSearchJob.set_failed (j : GraphSearchJob) (reason : Option String) :
    GraphSearchJob :=
  { j with search_started := true, search_success := some false,
           job_complete := true, exit_msg := reason }

/-- The outcome of one metadata fetch (`fetch_metadata`): the "no data yet"
condition (`SlpdbErrorNoSearchData`, raised on a `KeyError` over the response),
any other exception, or a successful response carrying `depthMap`,
`totalDepth` and `txcount` (each possibly null in the JSON). -/
inductive FetchResult where
  | noData
  | err (msg : String)
  | ok (dm : Option (List (Nat × Int × Int))) (td : Option Int) (tc : Option Int)
deriving DecidableEq, Inhabited

/-- `SlpGraphSearchManager` state: the job heap (Python objects, addressed by
index so that the queues and the registry alias the same mutable job), the
`search_jobs` registry mapping root txid to a job, the two FIFO queues (of job
indices), the auto-abort threshold, and an instrumentation counter of the
metadata fetch attempts actually issued. -/
structure MgrState where
  jobs : List GraphSearchJob
  registry : List (String × Nat)
  metadata_queue : List Nat
  search_queue : List Nat
  cancel_thresh_txcount : Int := 20
  fetch_count : Nat := 0
deriving DecidableEq, Inhabited

/-- Dereference a job index in the heap. -/
def MgrState.getJob (st : MgrState) (jid : Nat) : GraphSearchJob :=
  st.jobs.getD jid default

/-- Write back a mutated job. -/
def MgrState.setJob (st : MgrState) (jid : Nat) (j : GraphSearchJob) : MgrState :=
  { st with jobs := st.jobs.set jid j }

/-- `SlpGraphSearchManager.new_search`: always constructs a fresh job for the
valjob's root txid and enqueues it on the metadata queue (the registry is not
consulted here). -/
def new_search (st : MgrState) (vj : ValJob) : MgrState :=
  { st with jobs := st.jobs ++ [{ root_txid := vj.root_txid, valjob := vj }],
            metadata_queue := st.metadata_queue ++ [st.jobs.length] }

/-- The body of the callback closure built inside `restart_search`: pop the
job's root txid from the registry, then submit a fresh search for the same
valjob.  A caller-supplied `other` callback is opaque to the manager state. -/
def runCallback (st : MgrState) (cb : Callback) : MgrState :=
  match cb with
  | Callback.other _ => st
  | Callback.restartCb root vj =>
      new_search { st with registry := st.registry.filter (fun p => p.1 ≠ root) } vj

/-- `SlpGraphSearchManager.restart_search`: on an incomplete job, schedule a
cancellation with reason `job restarted` and the restart callback; on a
complete job, run the callback immediately. -/
def restart_search (st : MgrState) (jid : Nat) : MgrState :=
  let j := st.getJob jid
  if j.job_complete then
    runCallback st (Callback.restartCb j.root_txid j.valjob)
  else
    st.setJob jid
      (j.sched_cancel (some (Callback.restartCb j.root_txid j.valjob)) "job restarted")

/-- One iteration of `SlpGraphSearchManager.metadata_loop`, with the outcome
of the (potential) metadata fetch supplied by the oracle `fetch`, indexed by
the number of fetch attempts issued so far.  The iteration dequeues a job;
registers it, or discards it when its root txid is already registered; checks
owner liveness and host configuration; fetches metadata; on the "no data yet"
condition either fails the job when the retry budget is exhausted or
increments the retry counter and re-queues the job (the cool-down sleep has no
state effect and is not modelled); on another error fails the job; otherwise
records the metadata and either fails the job (absent or at-or-below-threshold
transaction count) or enqueues it on the search queue. -/
def metadataStep (fetch : Nat → FetchResult) (st : MgrState) : MgrState :=
  match st.metadata_queue with
  | [] => st
  | jid :: rest =>
    let st1 : MgrState := { st with metadata_queue := rest }
    let j := st1.getJob jid
    if (st1.registry.lookup j.root_txid).isSome then
      st1
    else
      let st2 : MgrState := { st1 with registry := (j.root_txid, jid) :: st1.registry }
      if !j.valjob.running && !j.valjob.has_never_run then
        st2.setJob jid (j.set_failed (some "validation finished"))
      else if j.valjob.slpdb_host = "" then
        st2.setJob jid (j.set_failed (some "SLPDB host not set"))
      else
        let st3 : MgrState := { st2 with fetch_count := st2.fetch_count + 1 }
        match fetch st2.fetch_count with
        | FetchResult.noData =>
          if j.fetch_retries > 10 then
            st3.setJob jid (j.set_failed (some "No data found, right-click to try"))
          else
            let st4 := st3.setJob jid { j with fetch_retries := j.fetch_retries + 1 }
            { st4 with metadata_queue := st4.metadata_queue ++ [jid] }
        | FetchResult.err m => st3.setJob jid (j.set_failed (some m))
        | FetchResult.ok dm td tc =>
          let j1 : GraphSearchJob :=
            { j with depth_map := dm, total_depth := td, txn_count_total := tc }
          match tc with
          | none => st3.setJob jid (j1.set_failed (some "metadata error"))
          | some n =>
            if n ≤ st3.cancel_thresh_txcount then
              st3.setJob jid (j1.set_failed (some "low txn count"))
            else
              let st4 := st3.setJob jid j1
              { st4 with search_queue := st4.search_queue ++ [jid] }

/-- Iterate the metadata loop a given number of times. -/
def runMeta (fetch : Nat → FetchResult) : Nat → MgrState → MgrState
  | 0, st => st
  | n + 1, st => runMeta fetch n (metadataStep fetch st)

/-- Look up a chunk boundary key in the depth map
(`job.depth_map[str(key)]`, giving the `[depth, txcount]` pair). -/
def dmLookup (dm : List (Nat × Int × Int)) (k : Nat) : Option (Int × Int) :=
  (dm.find? (fun p => p.1 == k)).map (fun p => p.2)

/-- The search request URL recorded in `job.last_search_url`
(`host + "/q/" + base64(json)`; the base64-encoded JSON encoding is abstracted,
keeping the host, the frontier and the requested depth). -/
def queryUrl (host : String) (txids : List String) (maxDepth : Int) : String :=
  host ++ "/q/" ++ toString maxDepth ++ "|" ++ String.intercalate "," txids

/-- `for tx in txns: tx_cache_put(tx[1])`: write the fetched transactions into
the shared cache in order; a `ValueError` from `tx_cache_put` aborts the
iteration, keeping the puts already performed (`false` flags the raised
error). -/
def putRound : TxCache → List Transaction → TxCache × Bool
  | c, [] => (c, true)
  | c, t :: ts =>
    match tx_cache_put c t none with
    | none => (c, false)
    | some c' => putRound c' ts

/-- How one call of `search_query` (one chunk round) returns: applied
cancellation, owner-liveness failure, a raised exception (`KeyError` on a
missing depth-map boundary, missing metadata, or a `ValueError` from the cache
put — propagated to `search_loop`, which fails the job), recursion into the
next chunk with a new frontier, or success. -/
inductive RoundRes where
  | canceled
  | livenessFailed
  | error
  | next (txids : List String)
  | succeeded
deriving DecidableEq, Inhabited

/-- The full effect of one chunk round: the updated job, the updated shared
cache, the issued request (frontier and requested depth), the callbacks
invoked, and how the round returned. -/
structure RoundOut where
  job : GraphSearchJob
  cache : TxCache
  req : Option (List String × Int)
  invoked : List Callback
  res : RoundRes
deriving DecidableEq, Inhabited

/-- The body of one call of `SlpGraphSearchManager.search_query` on chunk
index `i`, with the backend's parsed response for this round supplied by the
oracle `round` as `(depth, transaction)` pairs.  Checkpoints cancellation and
owner liveness; on chunk 0 resets the frontier to the root txid; reads this
chunk's boundary `(depth, txcount)` pair at key `(i+1)*1000`; computes the
requested depth (full boundary depth on chunk 0, else the increment over the
boundary at `i*1000`); records the request URL; counts and caches the fetched
transactions; advances `depth_completed` to the boundary depth when at least
one transaction was returned; then either succeeds or hands the deepest tier
to the next chunk. -/
def searchRound (round : List (Int × Transaction)) (j : GraphSearchJob)
    (cache : TxCache) (txids0 : List String) (i : Nat) : RoundOut :=
  if j.waiting_to_cancel then
    { job := j._cancel, cache := cache, req := none,
      invoked := j.cancel_callback.toList, res := RoundRes.canceled }
  else if !j.valjob.running && !j.valjob.has_never_run then
    { job := j.set_failed (some "validation finished"), cache := cache,
      req := none, invoked := [], res := RoundRes.livenessFailed }
  else
    let txids := if i = 0 then [j.root_txid] else txids0
    match j.depth_map with
    | none =>
      { job := j, cache := cache, req := none, invoked := [], res := RoundRes.error }
    | some dm =>
      match dmLookup dm ((i + 1) * 1000) with
      | none =>
        { job := j, cache := cache, req := none, invoked := [], res := RoundRes.error }
      | some (dq, _tc) =>
        let j1 : GraphSearchJob := { j with depth_current_query := some dq }
        let qd? : Option Int :=
          if i > 0 then
            match dmLookup dm (i * 1000) with
            | none => none
            | some (pd, _pc) => some (dq - pd)
          else some dq
        match qd? with
        | none =>
          { job := j1, cache := cache, req := none, invoked := [],
            res := RoundRes.error }
        | some query_depth =>
          let j2 : GraphSearchJob :=
            { j1 with last_search_url := queryUrl j.valjob.slpdb_host txids query_depth }
          let j3 : GraphSearchJob :=
            { j2 with txn_count_progress := j2.txn_count_progress + round.length }
          let pr := putRound cache (round.map (fun p => p.2))
          if pr.2 then
            let j4 : GraphSearchJob :=
              if round.isEmpty then j3 else { j3 with depth_completed := dq }
            match j4.total_depth with
            | none =>
              { job := j4, cache := pr.1, req := some (txids, query_depth),
                invoked := [], res := RoundRes.error }
            | some td =>
              if j4.depth_completed < td then
                { job := j4, cache := pr.1, req := some (txids, query_depth),
                  invoked := [],
                  res := RoundRes.next
                    ((round.filter (fun p => p.1 == query_depth)).map
                      (fun p => p.2.txid_fast)) }
              else
                { job := j4.set_success, cache := pr.1,
                  req := some (txids, query_depth), invoked := [],
                  res := RoundRes.succeeded }
          else
            { job := j3, cache := pr.1, req := some (txids, query_depth),
              invoked := [], res := RoundRes.error }

/-- How a full `search_query` recursion ends (or runs out of modelling fuel:
the source recursion has no intrinsic bound, see spec section 9). -/
inductive Outcome where
  | canceled
  | livenessFailed
  | error
  | succeeded
  | fuelOut
deriving DecidableEq, Inhabited

/-- The recursive `SlpGraphSearchManager.search_query`, iterated as chunk
rounds (`searchRound`) with the per-round backend responses supplied by the
oracle `rounds` (indexed by chunk index).  Returns the trace of job states
(the job as passed to each call, then the final job), the final cache, and the
outcome. -/
def search_query (rounds : Nat → List (Int × Transaction)) :
    Nat → GraphSearchJob → TxCache → List String → Nat →
    List GraphSearchJob × TxCache × Outcome
  | 0, j, c, _, _ => ([j], c, Outcome.fuelOut)
  | fuel + 1, j, c, txids, i =>
    let o := searchRound (rounds i) j c txids i
    match o.res with
    | RoundRes.next nxt =>
      let r := search_query rounds fuel o.job o.cache nxt (i + 1)
      (j :: r.1, r.2.1, r.2.2)
    | RoundRes.canceled => ([j, o.job], o.cache, Outcome.canceled)
    | RoundRes.livenessFailed => ([j, o.job], o.cache, Outcome.livenessFailed)
    | RoundRes.error => ([j, o.job], o.cache, Outcome.error)
    | RoundRes.succeeded => ([j, o.job], o.cache, Outcome.succeeded)

/-- Well-formedness of a fetched depth map with respect to the fetched total
depth: boundary depths are non-negative, bounded by the total depth, and
non-decreasing in the boundary key (the DepthMap invariants of spec
section 3). -/
def DepthMapWF (dm : List (Nat × Int × Int)) (td : Int) : Prop :=
  (∀ p ∈ dm, 0 ≤ p.2.1 ∧ p.2.1 ≤ td) ∧
  ∀ p ∈ dm, ∀ q ∈ dm, p.1 ≤ q.1 → p.2.1 ≤ q.2.1

/-- The reachable values of `depth_completed` on entry to chunk round `i`:
still the initial `0`, or the boundary depth of an already completed chunk. -/
def DepthInv (dm : List (Nat × Int × Int)) (d : Int) (i : Nat) : Prop :=
  d = 0 ∨ ∃ k c, k ≤ i ∧ dmLookup dm (k * 1000) = some (d, c)

/-- A live owner job (running, never run, host configured). -/
def vjLive : ValJob :=
  { root_txid := "r", running := true, has_never_run := true, slpdb_host := "h" }

/-- A freshly constructed search job for `vjLive`. -/
def jFresh : GraphSearchJob := { root_txid := "r", valjob := vjLive }

/-- A manager state holding the single fresh job, just submitted. -/
def stOneJob : MgrState :=
  { jobs := [jFresh], registry := [], metadata_queue := [0], search_queue := [] }

/-- A job whose fetched depth map reports boundary depth 5 at key 1000 while
the fetched total depth is 3. -/
def jOverDepth : GraphSearchJob :=
  { root_txid := "r", valjob := vjLive,
    depth_map := some [(1000, 5, 10)], total_depth := some 3 }

/-- A job whose fetched depth map has two chunk boundaries (depths 2 and 5)
and total depth 5. -/
def jTwoChunks : GraphSearchJob :=
  { root_txid := "r", valjob := vjLive,
    depth_map := some [(1000, 2, 10), (2000, 5, 20)], total_depth := some 5 }

/-- A job already terminal, registered in `stTerminal`. -/
def jDone : GraphSearchJob := { root_txid := "r", valjob := vjLive, job_complete := true }

/-- A manager state with the terminal job registered. -/
def stTerminal : MgrState :=
  { jobs := [jDone], registry := [("r", 0)], metadata_queue := [], search_queue := [] }

/-- A job with a pending cancellation and a registered callback. -/
def jWaitCancel : GraphSearchJob :=
  { root_txid := "r", valjob := vjLive, waiting_to_cancel := true,
    cancel_callback := some (Callback.other 7) }

/-- A manager state where the queued job's root txid is already registered (to
a previously dequeued job at heap index 0). -/
def stDup : MgrState :=
  { jobs := [jFresh], registry := [("r", 0)], metadata_queue := [0], search_queue := [] }

theorem getD_set_self {α : Type} (l : List α) (i : Nat) (a d : α)
    (h : i < l.length) : (l.set i a).getD i d = a := by
  induction l generalizing i with
  | nil => simp at h
  | cons x xs ih =>
    cases i with
    | zero => rfl
    | succ n =>
      simp only [List.set_cons_succ, List.getD_cons_succ]
      exact ih n (by simpa using h)

theorem lookup_none_not_key {β : Type} (l : List (String × β)) (k : String)
    (h : l.lookup k = none) : ∀ p ∈ l, p.1 ≠ k := by
  induction l with
  | nil => intro p hp; simp at hp
  | cons q qs ih =>
    intro p hp
    simp only [List.lookup] at h
    rcases hbe : (k == q.1) with _ | _
    · rw [hbe] at h
      rcases List.mem_cons.mp hp with rfl | hp2
      · intro hk
        rw [hk] at hbe
        simp at hbe
      · exact ih h p hp2
    · rw [hbe] at h
      simp at h

theorem dmLookup_mem (dm : List (Nat × Int × Int)) (k : Nat) (v : Int × Int)
    (h : dmLookup dm k = some v) : ∃ p ∈ dm, p.1 = k ∧ p.2 = v := by
  unfold dmLookup at h
  rcases hf : dm.find? (fun p => p.1 == k) with _ | p
  · rw [hf] at h
    simp at h
  · rw [hf] at h
    simp only [Option.map_some', Option.some.injEq] at h
    refine ⟨p, List.mem_of_find?_eq_some hf, ?_, h⟩
    have := List.find?_some hf
    simpa using this

theorem putRound_ok (c : TxCache) (l : List Transaction)
    (h : ∀ t ∈ l, t.raw ≠ "") : (putRound c l).2 = true := by
  induction l generalizing c with
  | nil => rfl
  | cons t ts ih =>
    have ht : t.raw ≠ "" := h t (by simp)
    simp only [putRound, tx_cache_put, if_neg ht]
    exact ih _ (fun x hx => h x (by simp [hx]))

theorem search_query_head (rounds : Nat → List (Int × Transaction)) (fuel : Nat)
    (j : GraphSearchJob) (c : TxCache) (txids : List String) (i : Nat) :
    ((search_query rounds fuel j c txids i).1).head? = some j := by
  cases fuel with
  | zero => rfl
  | succ n =>
    simp only [search_query]
    rcases (searchRound (rounds i) j c txids i).res <;> rfl

theorem runMeta_fix (fetch : Nat → FetchResult) (n : Nat) (st : MgrState)
    (h : metadataStep fetch st = st) : runMeta fetch n st = st := by
  induction n with
  | zero => rfl
  | succ m ih => simp only [runMeta, h, ih]

theorem DepthInv_mono (dm : List (Nat × Int × Int)) (d : Int) (i i' : Nat)
    (h : i ≤ i') (hd : DepthInv dm d i) : DepthInv dm d i' := by
  rcases hd with h0 | ⟨k, c, hk, hl⟩
  · exact Or.inl h0
  · exact Or.inr ⟨k, c, le_trans hk h, hl⟩

theorem searchRound_meta_eq (round : List (Int × Transaction)) (j : GraphSearchJob)
    (c : TxCache) (txids : List String) (i : Nat) :
    (searchRound round j c txids i).job.depth_map = j.depth_map ∧
    (searchRound round j c txids i).job.total_depth = j.total_depth := by
  simp only [searchRound]
  repeat' split <;>
    try simp_all [GraphSearchJob.set_failed, GraphSearchJob._cancel,
      GraphSearchJob.set_success]

theorem searchRound_depth (round : List (Int × Transaction)) (j : GraphSearchJob)
    (c : TxCache) (txids : List String) (i : Nat) (dm : List (Nat × Int × Int))
    (hdm : j.depth_map = some dm) :
    (searchRound round j c txids i).job.depth_completed = j.depth_completed ∨
    ∃ tc, dmLookup dm ((i + 1) * 1000) =
      some ((searchRound round j c txids i).job.depth_completed, tc) := by
  simp only [searchRound]
  rw [hdm]
  repeat' split
  all_goals
    try simp_all [GraphSearchJob.set_failed, GraphSearchJob._cancel,
      GraphSearchJob.set_success, putRound]

theorem searchRound_inv (round : List (Int × Transaction)) (j : GraphSearchJob)
    (c : TxCache) (txids : List String) (i : Nat) (dm : List (Nat × Int × Int))
    (td : Int) (hdm : j.depth_map = some dm) (htd : j.total_depth = some td)
    (hwf : DepthMapWF dm td) (hinv : DepthInv dm j.depth_completed i)
    (hle : j.depth_completed ≤ td) :
    (searchRound round j c txids i).job.depth_map = some dm ∧
    (searchRound round j c txids i).job.total_depth = some td ∧
    j.depth_completed ≤ (searchRound round j c txids i).job.depth_completed ∧
    (searchRound round j c txids i).job.depth_completed ≤ td ∧
    DepthInv dm (searchRound round j c txids i).job.depth_completed (i + 1) := by
  obtain ⟨hm1, hm2⟩ := searchRound_meta_eq round j c txids i
  refine ⟨by rw [hm1, hdm], by rw [hm2, htd], ?_⟩
  rcases searchRound_depth round j c txids i dm hdm with heq | ⟨tc, hlk⟩
  · rw [heq]
    exact ⟨le_refl _, hle, DepthInv_mono dm _ i (i + 1) (Nat.le_succ i) hinv⟩
  · obtain ⟨p, hp, hpk, hpv⟩ := dmLookup_mem dm _ _ hlk
    have hdv : p.2.1 = (searchRound round j c txids i).job.depth_completed := by
      rw [hpv]
    have hb := hwf.1 p hp
    refine ⟨?_, by rw [← hdv]; exact hb.2, Or.inr ⟨i + 1, tc, le_refl _, hlk⟩⟩
    rcases hinv with h0 | ⟨k, cc, hk, hlk2⟩
    · rw [h0, ← hdv]
      exact hb.1
    · obtain ⟨q, hq, hqk, hqv⟩ := dmLookup_mem dm _ _ hlk2
      have hqd : q.2.1 = j.depth_completed := by rw [hqv]
      have hkey : q.1 ≤ p.1 := by
        rw [hqk, hpk]
        exact Nat.mul_le_mul_right 1000 (le_trans hk (Nat.le_succ i))
      have := hwf.2 q hq p hp hkey
      rw [hqd, hdv] at this
      exact this

/-- C1 (code behavior at the failing input): with a single submitted job whose
every metadata fetch raises the "no data yet" condition, the metadata loop
issues at most one fetch attempt, no matter how many iterations run: the job
is registered and retried once (`fetch_retries` reaches 1, the job is
re-queued), but on its second dequeue the registry dedup check discards it
silently, so the job never transitions to Failed — the documented 10-retry
budget and the exhaustion failure are unreachable. -/
theorem metadata_retry_starved_c1 (n : Nat) :
    (runMeta (fun _ => FetchResult.noData) n stOneJob).fetch_count ≤ 1 ∧
    ((runMeta (fun _ => FetchResult.noData) n stOneJob).getJob 0).job_complete = false ∧
    ((runMeta (fun _ => FetchResult.noData) n stOneJob).getJob 0).exit_msg = none ∧
    ((runMeta (fun _ => FetchResult.noData) n stOneJob).getJob 0).fetch_retries ≤ 1 := by
  match n with
  | 0 => decide
  | 1 => decide
  | (m + 2) =>
    have hsteps : metadataStep (fun _ => FetchResult.noData)
        (metadataStep (fun _ => FetchResult.noData) stOneJob) =
        metadataStep (fun _ => FetchResult.noData)
          (metadataStep (fun _ => FetchResult.noData) stOneJob) := rfl
    have hfix : runMeta (fun _ => FetchResult.noData) m
        (metadataStep (fun _ => FetchResult.noData)
          (metadataStep (fun _ => FetchResult.noData) stOneJob)) =
        (metadataStep (fun _ => FetchResult.noData)
          (metadataStep (fun _ => FetchResult.noData) stOneJob)) :=
      runMeta_fix _ m _ (by decide)
    have hrun : runMeta (fun _ => FetchResult.noData) (m + 2) stOneJob =
        (metadataStep (fun _ => FetchResult.noData)
          (metadataStep (fun _ => FetchResult.noData) stOneJob)) := by
      simp only [runMeta]
      exact hfix
    rw [hrun]
    decide

/-- C10: every transition to Failed goes through `set_failed`, which sets the
`search_started` flag (and the terminal flags) as a side effect, whatever the
job state and the reason; in particular a job failed during the metadata stage
(here: missing backend host) is observable as started, complete and
unsuccessful even though it was never handed to the search queue. -/
theorem set_failed_marks_started_c10 (j : GraphSearchJob) (r : Option String) :
    ((j.set_failed r).search_started = true ∧
     (j.set_failed r).job_complete = true ∧
     (j.set_failed r).search_success = some false ∧
     (j.set_failed r).exit_msg = r) ∧
    (((metadataStep (fun _ => FetchResult.noData)
        { stOneJob with
          jobs := [{ jFresh with valjob := { vjLive with slpdb_host := "" } }] }).getJob
        0).search_started = true ∧
     (metadataStep (fun _ => FetchResult.noData)
        { stOneJob with
          jobs := [{ jFresh with valjob := { vjLive with slpdb_host := "" } }] }).search_queue
        = []) := by
  constructor
  · exact ⟨rfl, rfl, rfl, rfl⟩
  · constructor <;> decide

/-- C2: requesting cancellation on an already-terminal job only updates the
reason string (the job is otherwise unchanged, and nothing is invoked at
request time); on a non-terminal job it leaves the job non-terminal with the
pending-cancel flag set and the reason recorded; and when a cooperative
checkpoint (the head of `search_query`) observes the pending flag, the job
becomes terminal (complete and unsuccessful, i.e. Canceled) and the registered
callback is invoked exactly once, synchronously, before the round returns to
the worker loop. -/
theorem cancel_request_checkpoint_c2 (j : GraphSearchJob) (cb : Callback)
    (r : String) (round : List (Int × Transaction)) (c : TxCache)
    (txids : List String) (i : Nat) :
    (j.job_complete = true → j.sched_cancel (some cb) r = { j with exit_msg := some r }) ∧
    (j.job_complete = false →
      (j.sched_cancel (some cb) r).waiting_to_cancel = true ∧
      (j.sched_cancel (some cb) r).job_complete = false ∧
      (j.sched_cancel (some cb) r).exit_msg = some r) ∧
    (j.waiting_to_cancel = true → j.cancel_callback = some cb →
      (searchRound round j c txids i).job.job_complete = true ∧
      (searchRound round j c txids i).job.search_success = some false ∧
      (searchRound round j c txids i).invoked = [cb] ∧
      (searchRound round j c txids i).res = RoundRes.canceled) := by
  refine ⟨?_, ?_, ?_⟩
  · intro hc
    simp [GraphSearchJob.sched_cancel, hc]
  · intro hc
    by_cases hw : j.waiting_to_cancel = true
    · simp [GraphSearchJob.sched_cancel, hc, hw]
    · simp [GraphSearchJob.sched_cancel, hc, hw]
  · intro hw hcb
    simp [searchRound, hw, GraphSearchJob._cancel, hcb]

/-- C7: when the metadata loop dequeues a job whose root txid is already in
the registry, the only state change is the dequeue itself — the job is
discarded silently (no job field changes, the registry keeps the earlier
entry); a dequeued job with an unregistered root txid is registered at that
moment, whatever the rest of the iteration does; and one iteration preserves
at-most-one-registry-entry-per-root-txid. -/
theorem metadata_dedup_registry_c7 (fetch : Nat → FetchResult) (st : MgrState)
    (jid : Nat) (rest : List Nat)
    (hq : st.metadata_queue = jid :: rest) :
    ((st.registry.lookup (st.getJob jid).root_txid).isSome = true →
      metadataStep fetch st = { st with metadata_queue := rest }) ∧
    (st.registry.lookup (st.getJob jid).root_txid = none →
      (metadataStep fetch st).registry =
        ((st.getJob jid).root_txid, jid) :: st.registry) ∧
    ((st.registry.map (fun p => p.1)).Nodup →
      ((metadataStep fetch st).registry.map (fun p => p.1)).Nodup) := by
  obtain ⟨jobs, reg, mq, sq, th, fc⟩ := st
  simp only [MgrState.mk.injEq] at hq ⊢
  subst hq
  refine ⟨?_, ?_, ?_⟩
  · intro hreg
    simp only [metadataStep, MgrState.getJob] at hreg ⊢
    simp only [hreg, if_true]
  · intro hreg
    simp only [metadataStep, MgrState.getJob] at hreg ⊢
    simp only [hreg, Option.isSome_none, Bool.false_eq_true, if_false]
    (repeat' split) <;> rfl
  · intro hnd
    by_cases hreg : (reg.lookup ((jobs.getD jid default).root_txid)) = none
    · simp only [metadataStep, MgrState.getJob] at hreg ⊢
      simp only [hreg, Option.isSome_none, Bool.false_eq_true, if_false]
      have hnotin : (jobs.getD jid default).root_txid ∉ reg.map (fun p => p.1) := by
        intro hmem
        obtain ⟨p, hp, hpe⟩ := List.mem_map.mp hmem
        exact lookup_none_not_key reg _ hreg p hp hpe
      (repeat' split) <;>
        (simp only [MgrState.setJob, List.map_cons, List.nodup_cons]; exact ⟨hnotin, hnd⟩)
    · have hsome : (reg.lookup ((jobs.getD jid default).root_txid)).isSome = true := by
        rcases hlk : reg.lookup ((jobs.getD jid default).root_txid) with _ | v
        · exact absurd hlk hreg
        · rfl
      simp only [metadataStep, MgrState.getJob] at hsome ⊢
      simp only [hsome, if_true]
      exact hnd

/-- C4: after a successful metadata fetch on a dequeued, unregistered, live,
host-configured job, a fetched total transaction count of 20 (the auto-abort
threshold) makes the job Failed with reason `low txn count` and it is not
enqueued for search; a count of 21 leaves the job non-terminal and enqueues it
on the search queue; an absent count makes the job Failed with reason
`metadata error`. -/
theorem metadata_admission_threshold_c4 (fetch : Nat → FetchResult) (st : MgrState)
    (jid : Nat) (rest : List Nat) (j : GraphSearchJob)
    (dm : Option (List (Nat × Int × Int))) (td : Option Int)
    (hq : st.metadata_queue = jid :: rest)
    (hlen : jid < st.jobs.length)
    (hj : st.getJob jid = j)
    (hreg : st.registry.lookup j.root_txid = none)
    (hlive : j.valjob.running = true)
    (hhost : ¬(j.valjob.slpdb_host = ""))
    (hth : st.cancel_thresh_txcount = 20)
    (hcomp : j.job_complete = false) :
    (fetch st.fetch_count = FetchResult.ok dm td (some 20) →
      ((metadataStep fetch st).getJob jid).job_complete = true ∧
      ((metadataStep fetch st).getJob jid).search_success = some false ∧
      ((metadataStep fetch st).getJob jid).exit_msg = some "low txn count" ∧
      (metadataStep fetch st).search_queue = st.search_queue) ∧
    (fetch st.fetch_count = FetchResult.ok dm td (some 21) →
      ((metadataStep fetch st).getJob jid).job_complete = false ∧
      ((metadataStep fetch st).getJob jid).txn_count_total = some 21 ∧
      (metadataStep fetch st).search_queue = st.search_queue ++ [jid]) ∧
    (fetch st.fetch_count = FetchResult.ok dm td none →
      ((metadataStep fetch st).getJob jid).job_complete = true ∧
      ((metadataStep fetch st).getJob jid).search_success = some false ∧
      ((metadataStep fetch st).getJob jid).exit_msg = some "metadata error") := by
  obtain ⟨jobs, reg, mq, sq, th, fc⟩ := st
  simp only [MgrState.getJob] at hj
  simp only at hq hlen hreg hth
  subst hq
  subst hth
  refine ⟨?_, ?_, ?_⟩ <;> intro hf <;>
    simp only [metadataStep, MgrState.getJob, MgrState.setJob, hj, hreg,
      Option.isSome_none, Bool.false_eq_true, if_false, hlive, Bool.not_true,
      Bool.false_and, hf, if_neg hhost, GraphSearchJob.set_failed]
  · rw [if_pos (show (20 : Int) ≤ 20 from by decide)]
    try simp only [MgrState.setJob]
    rw [getD_set_self _ _ _ _ (by simpa using hlen)]
    simp_all
  · rw [if_neg (show ¬((21 : Int) ≤ 20) from by decide)]
    try simp only [MgrState.setJob]
    rw [getD_set_self _ _ _ _ (by simpa using hlen)]
    simp_all
  · try simp only [MgrState.setJob]
    rw [getD_set_self _ _ _ _ (by simpa using hlen)]
    simp_all

/-- C5: in a chunk round that proceeds past the cancellation and liveness
checkpoints with both depth-map lookups succeeding, the cache puts succeeding
and the fetched total depth present: a round returning at least one
transaction advances `depth_completed` to this chunk's boundary depth, a round
returning none leaves it unchanged; immediately after that update the round
ends in Succeeded (complete, successful) exactly when
`depth_completed >= total_depth`, and otherwise recurses into the next chunk. -/
theorem chunk_round_progress_success_c5
    (round : List (Int × Transaction)) (j : GraphSearchJob) (c : TxCache)
    (txids : List String) (i : Nat) (dm : List (Nat × Int × Int)) (dq tc td : Int)
    (hw : j.waiting_to_cancel = false)
    (hr : j.valjob.running = true)
    (hdm : j.depth_map = some dm)
    (hlook : dmLookup dm ((i + 1) * 1000) = some (dq, tc))
    (hprev : 0 < i → (dmLookup dm (i * 1000)).isSome = true)
    (hraw : ∀ p ∈ round, ¬(p.2.raw = ""))
    (htd : j.total_depth = some td) :
    (¬(round = []) → (searchRound round j c txids i).job.depth_completed = dq) ∧
    (round = [] → (searchRound round j c txids i).job.depth_completed = j.depth_completed) ∧
    ((searchRound round j c txids i).res = RoundRes.succeeded ↔
      td ≤ (searchRound round j c txids i).job.depth_completed) ∧
    ((searchRound round j c txids i).res = RoundRes.succeeded →
      (searchRound round j c txids i).job.job_complete = true ∧
      (searchRound round j c txids i).job.search_success = some true) ∧
    ((searchRound round j c txids i).job.depth_completed < td →
      ∃ nxt, (searchRound round j c txids i).res = RoundRes.next nxt) := by
  have hput : (putRound c (round.map (fun p => p.2))).2 = true :=
    putRound_ok c _ (by
      intro t ht
      obtain ⟨p, hp, rfl⟩ := List.mem_map.mp ht
      exact hraw p hp)
  by_cases hi : i = 0
  · subst hi
    simp only [searchRound, hw, Bool.false_eq_true, if_false, hr, Bool.not_true,
      Bool.false_and, hdm, hlook, hput, htd, GraphSearchJob.set_success,
      Nat.zero_add, gt_iff_lt, Nat.lt_irrefl, if_true]
    rcases round with _ | ⟨p0, r0⟩
    · simp only [List.isEmpty_nil, if_true, List.map_nil]
      by_cases hlt : j.depth_completed < td
      · rw [if_pos hlt]
        refine ⟨by simp, by simp, by simp; omega, by simp, by intro h; exact ⟨_, rfl⟩⟩
      · rw [if_neg hlt]
        refine ⟨by simp, by simp, by simp; omega, by simp, by intro h; exact absurd h hlt⟩
    · simp only [List.isEmpty_cons, Bool.false_eq_true, if_false, htd]
      by_cases hlt : dq < td
      · rw [if_pos hlt]
        refine ⟨by simp, by simp, by simp; omega, by simp, by intro h; exact ⟨_, rfl⟩⟩
      · rw [if_neg hlt]
        refine ⟨by simp, by simp, by simp; omega, by simp, by intro h; exact absurd h hlt⟩
  · have hip : 0 < i := Nat.pos_of_ne_zero hi
    obtain ⟨pp, hpp⟩ := Option.isSome_iff_exists.mp (hprev hip)
    rcases pp with ⟨pd, pc⟩
    simp only [searchRound, hw, Bool.false_eq_true, if_false, hr, Bool.not_true,
      Bool.false_and, hdm, hlook, hput, htd, GraphSearchJob.set_success,
      gt_iff_lt, if_pos hip, hpp, if_neg hi]
    rcases round with _ | ⟨p0, r0⟩
    · simp only [List.isEmpty_nil, if_true, List.map_nil]
      by_cases hlt : j.depth_completed < td
      · rw [if_pos hlt]
        refine ⟨by simp, by simp, by simp; omega, by simp, by intro h; exact ⟨_, rfl⟩⟩
      · rw [if_neg hlt]
        refine ⟨by simp, by simp, by simp; omega, by simp, by intro h; exact absurd h hlt⟩
    · simp only [List.isEmpty_cons, Bool.false_eq_true, if_false, htd]
      by_cases hlt : dq < td
      · rw [if_pos hlt]
        refine ⟨by simp, by simp, by simp; omega, by simp, by intro h; exact ⟨_, rfl⟩⟩
      · rw [if_neg hlt]
        refine ⟨by simp, by simp, by simp; omega, by simp, by intro h; exact absurd h hlt⟩

/-- C6: the request issued by a chunk round carries the frontier and the
requested depth: on chunk 0 the frontier is reset to the root txid and the
requested depth is the boundary depth at key 1000 of the depth map; on chunk
`i > 0` the frontier is the one handed over by the previous round and the
requested depth is the boundary depth at key `(i+1)*1000` minus the boundary
depth at key `i*1000`; and when the round recurses, the next frontier is
exactly the ids of the transactions fetched this round whose returned depth
equals this chunk's requested depth. -/
theorem chunk_depth_window_frontier_c6
    (round : List (Int × Transaction)) (j : GraphSearchJob) (c : TxCache)
    (txids0 : List String) (i : Nat) (dm : List (Nat × Int × Int)) (dq tc : Int)
    (hw : j.waiting_to_cancel = false)
    (hr : j.valjob.running = true)
    (hdm : j.depth_map = some dm)
    (hlook : dmLookup dm ((i + 1) * 1000) = some (dq, tc)) :
    (i = 0 →
      (searchRound round j c txids0 i).req = some ([j.root_txid], dq) ∧
      ∀ nxt, (searchRound round j c txids0 i).res = RoundRes.next nxt →
        nxt = (round.filter (fun p => p.1 == dq)).map (fun p => p.2.txid_fast)) ∧
    (∀ pd pc, 0 < i → dmLookup dm (i * 1000) = some (pd, pc) →
      (searchRound round j c txids0 i).req = some (txids0, dq - pd) ∧
      ∀ nxt, (searchRound round j c txids0 i).res = RoundRes.next nxt →
        nxt = (round.filter (fun p => p.1 == dq - pd)).map (fun p => p.2.txid_fast)) := by
  constructor
  · intro hi
    subst hi
    simp only [searchRound, hw, Bool.false_eq_true, if_false, hr, Bool.not_true,
      Bool.false_and, hdm, hlook, Nat.zero_add, gt_iff_lt, Nat.lt_irrefl, if_true]
    constructor
    · (repeat' split) <;> rfl
    · intro nxt
      (repeat' split) <;> simp_all
  · intro pd pc hip hpp
    simp only [searchRound, hw, Bool.false_eq_true, if_false, hr, Bool.not_true,
      Bool.false_and, hdm, hlook, gt_iff_lt, if_pos hip, hpp,
      if_neg (Nat.pos_iff_ne_zero.mp hip)]
    constructor
    · (repeat' split) <;> rfl
    · intro nxt
      (repeat' split) <;> simp_all

theorem cache_get_put (c : TxCache) (k : String) (v : Transaction) :
    ExpiringCache.get (ExpiringCache.put c k v) k = some v := by
  unfold ExpiringCache.get ExpiringCache.put
  rw [show cacheMaxlen = 99999 + 1 from rfl, List.take_succ_cons]
  simp [List.find?_cons]

/-- C8: putting a record with non-empty raw bytes into the shared cache under
an id and reading the same id back (before any eviction) succeeds and returns
a record whose raw bytes are the ones put; the returned record is a fresh
non-deserialized copy, so the deserialized ("mutated") variant of the returned
copy is never what a subsequent get yields. -/
theorem tx_cache_roundtrip_copy_c8 (c : TxCache) (tx : Transaction) (id : String)
    (hraw : ¬(tx.raw = "")) (hid : ¬(id = "")) :
    ∃ c', tx_cache_put c tx (some id) = some c' ∧
      tx_cache_get c' id = some { raw := tx.raw, deserialized := false } ∧
      tx_cache_get c' id ≠ some { raw := tx.raw, deserialized := true } := by
  refine ⟨ExpiringCache.put c id { raw := tx.raw }, ?_, ?_, ?_⟩
  · simp [tx_cache_put, hraw, hid]
  · simp [tx_cache_get, cache_get_put, hraw]
  · simp [tx_cache_get, cache_get_put, hraw]

/-- C9: restarting a non-terminal job (with no cancellation already pending)
only requests cancellation: the job gets reason `job restarted`, the
pending-cancel flag, and the restart callback, while the registry and the
metadata queue are untouched; restarting an already-terminal job runs that
callback immediately and synchronously; and the restart callback removes the
job's root txid from the registry and submits a fresh job for the same
owner (appending it to the job heap and the metadata queue). -/
theorem restart_semantics_c9 (st : MgrState) (jid : Nat) (j : GraphSearchJob)
    (hj : st.getJob jid = j) :
    (j.job_complete = false → j.waiting_to_cancel = false →
      restart_search st jid =
        st.setJob jid
          { j with exit_msg := some "job restarted", waiting_to_cancel := true,
                   cancel_callback := some (Callback.restartCb j.root_txid j.valjob) } ∧
      (restart_search st jid).registry = st.registry ∧
      (restart_search st jid).metadata_queue = st.metadata_queue) ∧
    (j.job_complete = true →
      restart_search st jid = runCallback st (Callback.restartCb j.root_txid j.valjob)) ∧
    (∀ st2 : MgrState, runCallback st2 (Callback.restartCb j.root_txid j.valjob) =
      { st2 with
        registry := st2.registry.filter (fun p => p.1 ≠ j.root_txid),
        jobs := st2.jobs ++ [{ root_txid := j.valjob.root_txid, valjob := j.valjob }],
        metadata_queue := st2.metadata_queue ++ [st2.jobs.length] }) := by
  refine ⟨?_, ?_, ?_⟩
  · intro hc hw
    refine ⟨?_, ?_, ?_⟩
    · simp [restart_search, hj, hc, GraphSearchJob.sched_cancel, hw]
    · simp [restart_search, hj, hc, MgrState.setJob]
    · simp [restart_search, hj, hc, MgrState.setJob]
  · intro hc
    simp [restart_search, hj, hc]
  · intro st2
    rfl

/-- C3 (amended): for a job whose fetched metadata is well-formed — boundary
depths non-negative, bounded by the fetched total depth and non-decreasing in
the boundary key — and whose `depth_completed` is a reachable value (0 or an
already completed boundary depth) not exceeding the total depth, the whole
chunked search leaves `depth_completed` non-decreasing from state to state and
never exceeding the total depth.  (Unconditionally, over arbitrary backend
depth maps, the claim fails: see the counterexample.) -/
theorem depth_completed_monotone_bounded_c3
    (rounds : Nat → List (Int × Transaction)) (fuel : Nat)
    (j : GraphSearchJob) (c : TxCache) (txids : List String) (i : Nat)
    (dm : List (Nat × Int × Int)) (td : Int)
    (hdm : j.depth_map = some dm) (htd : j.total_depth = some td)
    (hwf : DepthMapWF dm td) (hinv : DepthInv dm j.depth_completed i)
    (hle : j.depth_completed ≤ td) :
    List.Chain' (fun a b => a.depth_completed ≤ b.depth_completed)
      (search_query rounds fuel j c txids i).1 ∧
    ∀ x ∈ (search_query rounds fuel j c txids i).1, x.depth_completed ≤ td := by
  induction fuel generalizing j c txids i with
  | zero =>
    constructor
    · exact List.chain'_singleton j
    · intro x hx
      simp only [search_query, List.mem_singleton] at hx
      rw [hx]
      exact hle
  | succ n ih =>
    obtain ⟨hjm, hjt, hmono, hbnd, hinv'⟩ :=
      searchRound_inv (rounds i) j c txids i dm td hdm htd hwf hinv hle
    simp only [search_query]
    rcases hres : (searchRound (rounds i) j c txids i).res with _ | _ | _ | nxt | _
    all_goals simp only [hres]
    case next =>
      obtain ⟨ihc, ihb⟩ := ih ((searchRound (rounds i) j c txids i).job)
        ((searchRound (rounds i) j c txids i).cache) nxt (i + 1) hjm hjt hinv' hbnd
      constructor
      · rw [List.chain'_cons']
        refine ⟨?_, ihc⟩
        intro y hy
        rw [search_query_head] at hy
        simp only [Option.mem_def, Option.some.injEq] at hy
        rw [← hy]
        exact hmono
      · intro x hx
        rcases List.mem_cons.mp hx with rfl | hx2
        · exact hle
        · exact ihb x hx2
    all_goals
      constructor
      · exact List.chain'_pair.mpr hmono
      · intro x hx
        rcases List.mem_cons.mp hx with rfl | hx2
        · exact hle
        · rw [List.mem_singleton] at hx2
          rw [hx2]
          exact hbnd

/-- C3 counterexample: the claim fails as stated, with no assumption on the
fetched depth map.  For the job whose fetched depth map reports boundary depth
5 at key 1000 while the fetched total depth is 3, one chunk round returning a
single transaction sets `depth_completed` to 5, which exceeds the job's total
depth 3 (the code copies the boundary depth verbatim and never clamps it). -/
theorem depth_exceeds_total_c3_cex :
    (searchRound [(1, { raw := "aa" })] jOverDepth [] [] 0).job.depth_completed = 5 ∧
    jOverDepth.total_depth = some 3 ∧
    ¬((searchRound [(1, { raw := "aa" })] jOverDepth [] [] 0).job.depth_completed ≤ 3) := by
  refine ⟨by decide, by decide, by decide⟩

/-- Witness for C3: the two-chunk job run to completion under its well-formed
depth map. -/
theorem depth_completed_monotone_bounded_c3_witness :
    jTwoChunks.depth_map = some [(1000, 2, 10), (2000, 5, 20)] ∧
    jTwoChunks.total_depth = some 5 ∧
    DepthMapWF [(1000, 2, 10), (2000, 5, 20)] 5 ∧
    DepthInv [(1000, 2, 10), (2000, 5, 20)] jTwoChunks.depth_completed 0 ∧
    jTwoChunks.depth_completed ≤ 5 ∧
    (List.Chain' (fun a b => a.depth_completed ≤ b.depth_completed)
      (search_query
        (fun i => if i = 0 then [(2, { raw := "aa" })] else [(3, { raw := "cc" })])
        3 jTwoChunks [] [] 0).1 ∧
    ∀ x ∈ (search_query
        (fun i => if i = 0 then [(2, { raw := "aa" })] else [(3, { raw := "cc" })])
        3 jTwoChunks [] [] 0).1, x.depth_completed ≤ 5) :=
  ⟨rfl, rfl, by unfold DepthMapWF; exact ⟨by decide, by decide⟩, Or.inl rfl, by decide,
    depth_completed_monotone_bounded_c3
      (fun i => if i = 0 then [(2, { raw := "aa" })] else [(3, { raw := "cc" })])
      3 jTwoChunks [] [] 0 [(1000, 2, 10), (2000, 5, 20)] 5
      rfl rfl (by unfold DepthMapWF; exact ⟨by decide, by decide⟩) (Or.inl rfl) (by decide)⟩

/-- Witness for C2: a terminal job, a fresh job and a cancel-pending job. -/
theorem cancel_request_checkpoint_c2_witness :
    jDone.job_complete = true ∧
    jDone.sched_cancel (some (Callback.other 7)) "x" = { jDone with exit_msg := some "x" } ∧
    jFresh.job_complete = false ∧
    (jFresh.sched_cancel (some (Callback.other 7)) "x").waiting_to_cancel = true ∧
    jWaitCancel.waiting_to_cancel = true ∧
    (searchRound [] jWaitCancel [] [] 0).invoked = [Callback.other 7] ∧
    (searchRound [] jWaitCancel [] [] 0).res = RoundRes.canceled := by
  refine ⟨rfl, ?_, rfl, ?_, rfl, ?_, ?_⟩
  · exact (cancel_request_checkpoint_c2 jDone (Callback.other 7) "x" [] [] [] 0).1 rfl
  · exact ((cancel_request_checkpoint_c2 jFresh (Callback.other 7) "x" [] [] [] 0).2.1 rfl).1
  · exact ((cancel_request_checkpoint_c2 jWaitCancel (Callback.other 7) "x" [] [] [] 0).2.2
      rfl rfl).2.2.1
  · exact ((cancel_request_checkpoint_c2 jWaitCancel (Callback.other 7) "x" [] [] [] 0).2.2
      rfl rfl).2.2.2

/-- Witness for C4: the single fresh job admitted against a fetched total
count of 20. -/
theorem metadata_admission_threshold_c4_witness :
    stOneJob.metadata_queue = 0 :: [] ∧
    ((metadataStep (fun _ => FetchResult.ok none none (some 20)) stOneJob).getJob 0).exit_msg
      = some "low txn count" ∧
    ((metadataStep (fun _ => FetchResult.ok none none (some 20)) stOneJob).getJob
      0).job_complete = true := by
  have h := metadata_admission_threshold_c4 (fun _ => FetchResult.ok none none (some 20))
    stOneJob 0 [] jFresh none none rfl (by decide) rfl rfl rfl (by decide) rfl rfl
  exact ⟨rfl, (h.1 rfl).2.2.1, (h.1 rfl).1⟩

/-- Witness for C5: the first chunk round of the two-chunk job. -/
theorem chunk_round_progress_success_c5_witness :
    (searchRound [(2, { raw := "aa" })] jTwoChunks [] [] 0).job.depth_completed = 2 ∧
    ∃ nxt, (searchRound [(2, { raw := "aa" })] jTwoChunks [] [] 0).res = RoundRes.next nxt := by
  have h := chunk_round_progress_success_c5 [(2, { raw := "aa" })] jTwoChunks [] [] 0
    [(1000, 2, 10), (2000, 5, 20)] 2 10 5 rfl rfl rfl rfl
    (fun hlt => absurd hlt (by decide)) (by decide) rfl
  refine ⟨h.1 (by decide), h.2.2.2.2 ?_⟩
  rw [h.1 (by decide)]
  decide

/-- Witness for C6: the requests of chunk 0 and chunk 1 of the two-chunk job. -/
theorem chunk_depth_window_frontier_c6_witness :
    (searchRound [(2, { raw := "aa" })] jTwoChunks [] [] 0).req = some (["r"], 2) ∧
    (searchRound [(3, { raw := "cc" })] { jTwoChunks with depth_completed := 2 }
      [] ["txid:aa"] 1).req = some (["txid:aa"], 3) := by
  have h0 := chunk_depth_window_frontier_c6 [(2, { raw := "aa" })] jTwoChunks [] [] 0
    [(1000, 2, 10), (2000, 5, 20)] 2 10 rfl rfl rfl rfl
  have h1 := chunk_depth_window_frontier_c6 [(3, { raw := "cc" })]
    { jTwoChunks with depth_completed := 2 } [] ["txid:aa"] 1
    [(1000, 2, 10), (2000, 5, 20)] 5 20 rfl rfl rfl rfl
  refine ⟨(h0.1 rfl).1, ?_⟩
  have := (h1.2 2 10 (by decide) rfl).1
  simpa using this

/-- Witness for C7: the queued duplicate of an already registered root txid is
discarded with only the dequeue as effect. -/
theorem metadata_dedup_registry_c7_witness :
    metadataStep (fun _ => FetchResult.noData) stDup = { stDup with metadata_queue := [] } :=
  (metadata_dedup_registry_c7 (fun _ => FetchResult.noData) stDup 0 [] rfl).1 rfl

/-- Witness for C8: a concrete put-then-get round trip. -/
theorem tx_cache_roundtrip_copy_c8_witness :
    ∃ c', tx_cache_put [] { raw := "aa" } (some "id1") = some c' ∧
      tx_cache_get c' "id1" = some { raw := "aa", deserialized := false } ∧
      tx_cache_get c' "id1" ≠ some { raw := "aa", deserialized := true } :=
  tx_cache_roundtrip_copy_c8 [] { raw := "aa" } "id1" (by decide) (by decide)

/-- Witness for C9: restarting the registered terminal job pops its registry
entry and submits a fresh job for the same owner. -/
theorem restart_semantics_c9_witness :
    restart_search stTerminal 0 =
      { stTerminal with
        registry := [],
        jobs := stTerminal.jobs ++ [{ root_txid := "r", valjob := vjLive }],
        metadata_queue := [1] } := by
  have h := restart_semantics_c9 stTerminal 0 jDone rfl
  rw [h.2.1 rfl, h.2.2 stTerminal]
  decide
